import Mathlib

/-!
Shallow embedding of the ingestor repository (PDF to Markdown to chunks to
embeddings to a Qdrant vector store), together with theorems settling the
claims about its specification.

The repository has two parallel implementations of the pipeline: one under
the app package (app/main.py, app/document/document.py, app/embedding/embedding.py,
app/pdf/pdf.py) and one under the src package (src/document/document.py,
src/utils/utils.py).  Definitions below carry an App or Src suffix when the
two variants differ.  External collaborators (the Qdrant store, the embedding
provider, the langchain text splitters, the OCR converter) are modelled from
the words of the specification; such definitions say so in their doc comment.
-/

namespace Ingestor

/-- Python errors that the modelled code can raise.  Raising a bare string
or calling with a missing required argument surfaces as typeError, a dict
lookup miss as keyError, a missing file as fileNotFound, a store rejection
of a wrong-sized vector as dimensionMismatch, and FastAPI HTTPException as
httpException with a status code. -/
inductive PyError where
  | typeError (msg : String)
  | keyError (key : String)
  | fileNotFound (path : String)
  | dimensionMismatch (expected got : Nat)
  | httpException (status : Nat) (detail : String)
deriving DecidableEq, Repr

/-- Document from langchain.schema as used by the code: page content plus a
string-to-string metadata mapping. -/
structure Document where
  page_content : String
  metadata : List (String × String)
deriving DecidableEq, Repr

/-- Distance metric enum of qdrant_client.models.Distance; the code only
ever uses COSINE. -/
inductive Distance where
  | cosine
  | euclid
  | dot
deriving DecidableEq, Repr

/-- VectorParams of a Qdrant collection: the vector size fixed at creation
and the distance metric. -/
structure CollectionCfg where
  size : Nat
  distance : Distance
deriving DecidableEq, Repr

/-- Point stored in Qdrant: an id, the embedding vector and the payload
copied from the Document metadata.  Embedding vectors are modelled as lists
of integers; only their lengths matter to the claims. -/
structure Point where
  id : Nat
  vector : List Int
  payload : List (String × String)
deriving DecidableEq, Repr

/-- State of the Qdrant vector store: the named collections with their
configuration, and the stored points tagged by collection name.  Modelled
from the spec: the Vector Store collaborator owns a collection-exists check,
collection-create, and point-upsert. -/
structure QdrantState where
  collections : List (String × CollectionCfg)
  points : List (String × Point)
deriving DecidableEq, Repr

/-- Embedding provider (OCIGenAIEmbeddings): an opaque total function from
text to a vector.  Modelled from the spec: the Embedding Provider collaborator
turns text into fixed-length numeric vectors. -/
structure EmbedModel where
  embed : String → List Int

/-- State threaded through the pipeline model: the vector store plus the
files written so far (path and content, most recent write first). -/
structure PipelineState where
  qdrant : QdrantState
  files : List (String × String)
deriving DecidableEq, Repr

/-- Writing a file: the new (path, content) pair shadows earlier writes of
the same path because lookup returns the first match. -/
def writeFile (st : PipelineState) (path content : String) : PipelineState :=
  { st with files := (path, content) :: st.files }

/-- Characters stripped by the Python str.strip method. -/
def isPySpace (c : Char) : Bool :=
  c == ' ' || c == '\t' || c == '\n' || c == '\r' || c == '\x0b' || c == '\x0c'

/-- Python str.strip: drop whitespace from both ends. -/
def pyStrip (l : List Char) : List Char :=
  ((l.dropWhile isPySpace).reverse.dropWhile isPySpace).reverse

/-- Fuel-indexed fixed-window splitter; the fuel only serves structural
recursion and is immaterial once it is at least the length of the text. -/
def fixedWindowSplitAux (size overlap : Nat) : Nat → List Char → List (List Char)
  | 0, T => [T]
  | fuel + 1, T =>
    if T.length ≤ size ∨ size ≤ overlap then [T]
    else T.take size :: fixedWindowSplitAux size overlap fuel (T.drop (size - overlap))

/-- Modelled from the spec: the fixed-window strategy of the Text Splitter
(its implementation lives in the external langchain
RecursiveCharacterTextSplitter, absent from src/): it splits text into
overlapping windows of a configured target size (characters), with a
configured overlap (characters) between consecutive windows. -/
def fixedWindowSplit (size overlap : Nat) (T : List Char) : List (List Char) :=
  fixedWindowSplitAux size overlap T.length T

/-- Boolean check that every pair of consecutive chunks agrees on the
overlap region: the last overlap characters of a chunk equal the first
overlap characters of the next chunk. -/
def consecOverlapB (overlap : Nat) : List (List Char) → Bool
  | c1 :: c2 :: rest =>
    (c1.drop (c1.length - overlap) == c2.take overlap) && consecOverlapB overlap (c2 :: rest)
  | _ => true

/-- Concatenation of a chunk list with the overlaps removed: the first chunk
in full, then every later chunk with its first overlap characters dropped. -/
def reconWithOverlap (overlap : Nat) : List (List Char) → List Char
  | [] => []
  | c :: cs => c ++ ((cs.map (List.drop overlap)).flatten)

theorem fwsAux_all_le (size overlap : Nat) (h : overlap < size) :
    ∀ (fuel : Nat) (T : List Char), T.length ≤ fuel →
      ∀ c ∈ fixedWindowSplitAux size overlap fuel T, c.length ≤ size := by
  intro fuel
  induction fuel with
  | zero =>
    intro T hT c hc
    simp only [fixedWindowSplitAux, List.mem_singleton] at hc
    subst hc
    omega
  | succ n ih =>
    intro T hT c hc
    simp only [fixedWindowSplitAux] at hc
    split at hc
    · rename_i hcond
      simp only [List.mem_singleton] at hc
      subst hc
      omega
    · rename_i hcond
      push_neg at hcond
      rcases List.mem_cons.mp hc with hhd | htl
      · subst hhd
        simp [List.length_take]
      · exact ih (T.drop (size - overlap)) (by simp [List.length_drop]; omega) c htl

theorem fwsAux_flatten_drop (size overlap : Nat) (h : overlap < size) :
    ∀ (fuel : Nat) (T : List Char), T.length ≤ fuel →
      ((fixedWindowSplitAux size overlap fuel T).map (List.drop overlap)).flatten
        = T.drop overlap := by
  intro fuel
  induction fuel with
  | zero =>
    intro T hT
    simp [fixedWindowSplitAux]
  | succ n ih =>
    intro T hT
    simp only [fixedWindowSplitAux]
    split
    · simp
    · rename_i hcond
      push_neg at hcond
      simp only [List.map_cons, List.flatten_cons]
      rw [ih (T.drop (size - overlap)) (by simp [List.length_drop]; omega)]
      rw [List.drop_drop]
      have h1 : (T.take size).drop overlap = (T.drop overlap).take (size - overlap) := by
        rw [List.take_drop]
        have : overlap + (size - overlap) = size := by omega
        rw [this]
      have h2 : size - overlap + overlap = size := by omega
      rw [h1, h2]
      have h3 : T.drop size = (T.drop overlap).drop (size - overlap) := by
        rw [List.drop_drop]
        have : overlap + (size - overlap) = size := by omega
        rw [this]
      rw [h3, List.take_append_drop]

theorem fwsAux_head (size overlap : Nat) (h : overlap < size) :
    ∀ (fuel : Nat) (T : List Char), T.length ≤ fuel →
      ∃ rest, fixedWindowSplitAux size overlap fuel T = T.take size :: rest := by
  intro fuel T hT
  cases fuel with
  | zero =>
    refine ⟨[], ?_⟩
    have hnil : T = [] := List.length_eq_zero.mp (by omega)
    subst hnil
    simp [fixedWindowSplitAux]
  | succ n =>
    simp only [fixedWindowSplitAux]
    split
    · rename_i hcond
      rcases hcond with hle | hso
      · exact ⟨[], by rw [List.take_of_length_le hle]⟩
      · exact absurd hso (by omega)
    · exact ⟨_, rfl⟩

theorem fwsAux_consec (size overlap : Nat) (h : overlap < size) :
    ∀ (fuel : Nat) (T : List Char), T.length ≤ fuel →
      consecOverlapB overlap (fixedWindowSplitAux size overlap fuel T) = true := by
  intro fuel
  induction fuel with
  | zero =>
    intro T hT
    simp [fixedWindowSplitAux, consecOverlapB]
  | succ n ih =>
    intro T hT
    simp only [fixedWindowSplitAux]
    split
    · simp [consecOverlapB]
    · rename_i hcond
      push_neg at hcond
      have hdlen : (T.drop (size - overlap)).length ≤ n := by
        simp [List.length_drop]; omega
      obtain ⟨rest, hrest⟩ := fwsAux_head size overlap h n (T.drop (size - overlap)) hdlen
      rw [hrest]
      have hrec := ih (T.drop (size - overlap)) hdlen
      rw [hrest] at hrec
      simp only [consecOverlapB, Bool.and_eq_true]
      refine ⟨?_, hrec⟩
      have hlen : (T.take size).length = size := by
        simp [List.length_take]; omega
      rw [hlen]
      have hL : (T.take size).drop (size - overlap)
          = (T.drop (size - overlap)).take overlap := by
        rw [List.take_drop]
        have : size - overlap + overlap = size := by omega
        rw [this]
      have hR : ((T.drop (size - overlap)).take size).take overlap
          = (T.drop (size - overlap)).take overlap := by
        rw [List.take_take]
        have : min overlap size = overlap := by omega
        rw [this]
      rw [hL, hR]
      simp

theorem fwsAux_mem_subset (size overlap : Nat) :
    ∀ (fuel : Nat) (T : List Char) (c : List Char),
      c ∈ fixedWindowSplitAux size overlap fuel T → ∀ ch ∈ c, ch ∈ T := by
  intro fuel
  induction fuel with
  | zero =>
    intro T c hc ch hch
    simp only [fixedWindowSplitAux, List.mem_singleton] at hc
    subst hc
    exact hch
  | succ n ih =>
    intro T c hc ch hch
    simp only [fixedWindowSplitAux] at hc
    split at hc
    · simp only [List.mem_singleton] at hc
      subst hc
      exact hch
    · rcases List.mem_cons.mp hc with hhd | htl
      · subst hhd
        exact List.take_subset size T hch
      · exact List.drop_subset _ T (ih (T.drop (size - overlap)) c htl ch hch)

theorem pyStrip_eq_nil_iff (l : List Char) :
    pyStrip l = [] ↔ ∀ c ∈ l, isPySpace c = true := by
  unfold pyStrip
  rw [List.reverse_eq_nil_iff, List.dropWhile_eq_nil_iff]
  constructor
  · intro hall c hc
    have hc2 : c ∈ l.takeWhile isPySpace ++ l.dropWhile isPySpace := by
      rw [List.takeWhile_append_dropWhile]
      exact hc
    rcases List.mem_append.mp hc2 with htk | hdp
    · exact List.mem_takeWhile_imp htk
    · exact hall c (List.mem_reverse.mpr hdp)
  · intro hall c hc
    rw [List.mem_reverse] at hc
    exact hall c ((List.dropWhile_sublist isPySpace).subset hc)

/-- Splitter objects built by get_text_splitter: either the
RecursiveCharacterTextSplitter with its chunk size, chunk overlap and
add_start_index flag, or the SemanticChunker with its breakpoint threshold
type. -/
inductive Splitter where
  | recursiveCharacter (chunk_size chunk_overlap : Nat) (add_start_index : Bool)
  | semanticChunker (breakpoint_threshold_type : String)
deriving DecidableEq, Repr

/-- Dict built inside get_text_splitter of app/embedding/embedding.py:
both splitter objects keyed by strategy name, sizes 1700 and 80. -/
def textSplittersFactory : List (String × Splitter) :=
  [("recursive_character", Splitter.recursiveCharacter 1700 80 true),
   ("semantic_chunker", Splitter.semanticChunker "interquartile")]

/-- Function get_text_splitter of app/embedding/embedding.py: a dict lookup
by strategy name; a missing key raises KeyError. -/
def getTextSplitterApp (name : String) : Except PyError Splitter :=
  match textSplittersFactory.lookup name with
  | some sp => Except.ok sp
  | none => Except.error (PyError.keyError name)

/-- Function get_text_splitter of src/utils/utils.py: the literal strategy
string semantic selects the SemanticChunker; any other value falls through
to the RecursiveCharacterTextSplitter with the given size and overlap. -/
def getTextSplitterSrc (strategy : String) (chunk_size chunk_overlap : Nat) : Splitter :=
  if strategy == "semantic" then Splitter.semanticChunker "interquartile"
  else Splitter.recursiveCharacter chunk_size chunk_overlap true

/-- Qdrant client collection_exists call used by app/embedding/embedding.py. -/
def qdrantCollectionExists (s : QdrantState) (name : String) : Bool :=
  s.collections.any (fun c => c.1 == name)

/-- List comprehension over client.get_collections().collections used by
src/utils/utils.py to test collection existence. -/
def srcCollectionNames (s : QdrantState) : List String :=
  s.collections.map (fun c => c.1)

/-- Qdrant client create_collection call: registers the name with its
VectorParams.  Modelled from the spec: collection-create of the Vector Store
wire contract. -/
def createCollection (s : QdrantState) (name : String) (cfg : CollectionCfg) : QdrantState :=
  { s with collections := (name, cfg) :: s.collections }

/-- VectorParams used by app/embedding/embedding.py: size 1024, cosine. -/
def appVectorParams : CollectionCfg :=
  { size := 1024, distance := Distance.cosine }

/-- Collection-creation step of send_embed_to_qdrant in
app/embedding/embedding.py (the spec calls it ensure_collection): check
existence first and create only if absent. -/
def ensureCollection (s : QdrantState) (name : String) (cfg : CollectionCfg) : QdrantState :=
  if qdrantCollectionExists s name then s else createCollection s name cfg

/-- Collection-creation step of send_embed_to_qdrant in src/utils/utils.py:
the same check-then-create, phrased over the list of collection names. -/
def ensureCollectionSrc (s : QdrantState) (name : String) (cfg : CollectionCfg) : QdrantState :=
  if (srcCollectionNames s).contains name then s else createCollection s name cfg

/-- Configuration of the named collection as the store resolves it. -/
def lookupCollection (s : QdrantState) (name : String) : Option CollectionCfg :=
  (s.collections.find? (fun c => c.1 == name)).map (fun c => c.2)

/-- Number of collections bearing the given name. -/
def countCollections (s : QdrantState) (name : String) : Nat :=
  (s.collections.filter (fun c => c.1 == name)).length

/-- Modelled from the spec: point-upsert of the Vector Store wire contract.
All vectors upserted into a Collection must have exactly vector_size
dimensions, so the store rejects any point whose vector length differs from
the size fixed at creation, and it never truncates or pads; accepted points
are stored as given. -/
def qdrantUpsert (s : QdrantState) (name : String) (ps : List Point) :
    Except PyError QdrantState :=
  match lookupCollection s name with
  | none => Except.error (PyError.keyError name)
  | some cfg =>
    match ps.find? (fun p => p.vector.length != cfg.size) with
    | some p => Except.error (PyError.dimensionMismatch cfg.size p.vector.length)
    | none => Except.ok { s with points := s.points ++ ps.map (fun p => (name, p)) }

/-- Modelled from the spec: embed_and_upsert builds one Point per Document,
with a freshly generated identifier, the embedding of the page content as
vector, and the Document metadata as payload.  Fresh uuid4 identifiers are
modelled as successive numbers from a base offset. -/
def mkPoints (base : Nat) (docs : List Document) (model : EmbedModel) : List Point :=
  match docs with
  | [] => []
  | d :: rest =>
    { id := base, vector := model.embed d.page_content, payload := d.metadata }
      :: mkPoints (base + 1) rest model

/-- Call vector_store.add_documents of langchain_qdrant as used by the app
variant.  Modelled from the spec: it embeds every document and upserts all
resulting points in one batch call. -/
def addDocuments (s : QdrantState) (name : String) (docs : List Document)
    (model : EmbedModel) : Except PyError QdrantState :=
  qdrantUpsert s name (mkPoints s.points.length docs model)

/-- Function send_embed_to_qdrant of app/embedding/embedding.py: after the
client is connected, an empty document list hits a bare raise of a string
literal, which Python surfaces as TypeError; otherwise the collection is
ensured with size 1024 and the documents are embedded and upserted. -/
def sendEmbedToQdrantApp (s : QdrantState) (collection_name : String)
    (documents : List Document) (model : EmbedModel) : Except PyError QdrantState :=
  if documents.isEmpty then
    Except.error (PyError.typeError "exceptions must derive from BaseException")
  else
    addDocuments (ensureCollection s collection_name appVectorParams)
      collection_name documents model

/-- Function send_embed_to_qdrant of src/utils/utils.py: no empty-input
check; the collection is ensured with its size inferred from embedding the
probe string test; then every document is embedded, paired into points and
upserted in one batch. -/
def sendEmbedToQdrantSrc (s : QdrantState) (collection_name : String)
    (documents : List Document) (model : EmbedModel) : Except PyError QdrantState :=
  qdrantUpsert
    (ensureCollectionSrc s collection_name
      { size := (model.embed "test").length, distance := Distance.cosine })
    collection_name
    (mkPoints
      (ensureCollectionSrc s collection_name
        { size := (model.embed "test").length, distance := Distance.cosine }).points.length
      documents model)

/-- Python os.path.basename restricted to slash-separated paths. -/
def basenameOf (path : String) : String :=
  (path.splitOn "/").getLastD path

/-- Record returned by create_embeddings_from_markdown. -/
structure EmbeddingResult where
  collection_name : String
  document_count : Nat
  splitter_type : String
deriving DecidableEq, Repr

/-- Function chunk_and_embed_markdown of app/embedding/embedding.py on the
recursive branch: read the file, obtain the splitter from the factory,
split the text, discard chunks that are blank after strip, and wrap each
survivor as a Document carrying the source file basename.  The semantic
branch delegates to the external SemanticChunker, passed in here as an
oracle function.  The window splitting itself is the spec-modelled
fixedWindowSplit at the app sizes 1700 and 80. -/
def chunkAndEmbedMarkdownApp (st : PipelineState) (file_path : String)
    (strategy : String) (semanticDocs : String → Except PyError (List Document)) :
    Except PyError (List Document) :=
  match st.files.lookup file_path with
  | none => Except.error (PyError.fileNotFound file_path)
  | some raw_text =>
    match getTextSplitterApp strategy with
    | Except.error e => Except.error e
    | Except.ok (Splitter.semanticChunker _) => semanticDocs raw_text
    | Except.ok (Splitter.recursiveCharacter size overlap _) =>
      Except.ok (((fixedWindowSplit size overlap raw_text.toList).filter
          (fun c => !(pyStrip c).isEmpty)).map
        (fun c => { page_content := String.mk c,
                    metadata := [("source_file", basenameOf file_path)] }))

/-- Function chunk_and_embed_markdown of src/utils/utils.py: read the file,
obtain the splitter from get_text_splitter, split the text, discard chunks
that are blank after strip, and wrap each survivor as a Document carrying
the source file basename; one code path serves both splitter kinds.  The
SemanticChunker split is external and passed in as an oracle function; the
window splitting is the spec-modelled fixedWindowSplit at the given size
and overlap. -/
def chunkAndEmbedMarkdownSrc (st : PipelineState) (file_path : String)
    (splitter_type : String) (chunk_size chunk_overlap : Nat)
    (semanticSplit : String → List String) : Except PyError (List Document) :=
  match st.files.lookup file_path with
  | none => Except.error (PyError.fileNotFound file_path)
  | some raw_text =>
    match getTextSplitterSrc splitter_type chunk_size chunk_overlap with
    | Splitter.semanticChunker _ =>
      Except.ok (((semanticSplit raw_text).filter
          (fun chunk => !(pyStrip chunk.toList).isEmpty)).map
        (fun chunk => { page_content := chunk,
                        metadata := [("source_file", basenameOf file_path)] }))
    | Splitter.recursiveCharacter size overlap _ =>
      Except.ok (((fixedWindowSplit size overlap raw_text.toList).filter
          (fun c => !(pyStrip c).isEmpty)).map
        (fun c => { page_content := String.mk c,
                    metadata := [("source_file", basenameOf file_path)] }))

/-- Function create_document_from_markdown of app/embedding/embedding.py:
open the file and wrap the whole raw text as one single Document whose
metadata records the collection name.  A missing file raises
FileNotFoundError from open, and a None path raises TypeError. -/
def createDocumentFromMarkdown (st : PipelineState) (markdown_file : Option String)
    (collection_name : String) : Except PyError (List Document) :=
  match markdown_file with
  | none =>
    Except.error (PyError.typeError "expected str, bytes or os.PathLike object, not NoneType")
  | some path =>
    match st.files.lookup path with
    | none => Except.error (PyError.fileNotFound path)
    | some raw_text =>
      Except.ok [{ page_content := raw_text, metadata := [("file_name", collection_name)] }]

/-- Function create_embeddings_from_markdown of app/embedding/embedding.py:
wrap the whole Markdown file as a single Document (the call to
chunk_and_embed_markdown is commented out in the source, so the splitter is
never invoked), send it to Qdrant, and report the collection name, the
document count and the strategy argument as splitter_type. -/
def createEmbeddingsFromMarkdown (st : PipelineState) (model : EmbedModel)
    (markdown_file : Option String) (collection_name : String) (strategy : String) :
    Except PyError (PipelineState × EmbeddingResult) :=
  match createDocumentFromMarkdown st markdown_file collection_name with
  | Except.error e => Except.error e
  | Except.ok documents =>
    match sendEmbedToQdrantApp st.qdrant collection_name documents model with
    | Except.error e => Except.error e
    | Except.ok q =>
      Except.ok ({ st with qdrant := q },
        { collection_name := collection_name,
          document_count := documents.length,
          splitter_type := strategy })

/-- Function save_temporary_md_file of app/pdf/pdf.py: write the page
markdown under the markdown folder; the source has no return statement, so
the value of the call is None. -/
def saveTemporaryMdFile (st : PipelineState)
    (markdown_folder pdf_name page_name md_generated : String) :
    PipelineState × Option String :=
  (writeFile st (markdown_folder ++ "/" ++ pdf_name ++ "/" ++ page_name ++ ".md")
      md_generated,
   none)

/-- Function create_page_path of app/pdf/pdf.py: write the single page into
the page pdf folder and return the path.  The page object is modelled by
the markdown text its OCR conversion will later produce. -/
def createPagePath (st : PipelineState)
    (page_md page_pdf_folder pdf_name page_name : String) : PipelineState × String :=
  let p := page_pdf_folder ++ "/" ++ pdf_name ++ "/" ++ page_name ++ ".pdf"
  (writeFile st p page_md, p)

/-- Temporary directory for single page pdf files in the app orchestrator. -/
def appPagePdfFolder : String := "tmp_page_pdf"

/-- Temporary directory for single page markdown files in the app
orchestrator. -/
def appMarkdownFolder : String := "tmp_markdown"

/-- Page loop of pdf_to_docling_with_ocr in app/document/document.py: for
each page in order, write the page pdf, convert it to markdown (external
OCR, modelled as yielding the page text), save the temporary markdown file
keeping its None return value as the page path, and feed that path to
create_embeddings_from_markdown with the default recursive_character
strategy. -/
def appPageLoop (st : PipelineState) (model : EmbedModel)
    (pdf_name collection_name : String) :
    List String → Nat → List EmbeddingResult →
    PipelineState × Except PyError (List EmbeddingResult)
  | [], _, acc => (st, Except.ok acc)
  | md :: rest, page_number, acc =>
    let page_name := pdf_name ++ "-" ++ toString page_number
    let st1 := (createPagePath st md appPagePdfFolder pdf_name page_name).1
    let md_generated := md
    let sv := saveTemporaryMdFile st1 appMarkdownFolder pdf_name page_name md_generated
    match createEmbeddingsFromMarkdown sv.1 model sv.2 collection_name
        "recursive_character" with
    | Except.error e => (sv.1, Except.error e)
    | Except.ok (st2, r) =>
      appPageLoop st2 model pdf_name collection_name rest (page_number + 1) (acc ++ [r])

/-- Function pdf_to_docling_with_ocr of app/document/document.py: zero
extracted pages hit a bare raise of a string literal, which Python surfaces
as TypeError; otherwise every page runs through the page loop.  The final
concatenation and bucket upload are commented out in the source.  Pages are
modelled by the markdown text their OCR conversion produces. -/
def pdfToDoclingWithOcrApp (st : PipelineState) (model : EmbedModel)
    (pages : List String) (pdf_name collection_name : String) :
    PipelineState × Except PyError (List EmbeddingResult) :=
  if pages.length = 0 then
    (st, Except.error (PyError.typeError "exceptions must derive from BaseException"))
  else
    appPageLoop st model pdf_name collection_name pages 1 []

/-- Directory constants read from the environment by src/document/document.py. -/
def srcPagePdfFolder : String := "page_pdf"

/-- Temporary markdown page directory of the src orchestrator. -/
def srcMarkdownFolder : String := "markdown_page"

/-- Full markdown file directory of the src orchestrator. -/
def srcFullFileMarkdownFolder : String := "full_file_markdown"

/-- Function concat_markdown_pages_into_file content: every page followed by
one blank line. -/
def concatPages (pages : List String) : String :=
  String.join (pages.map (fun p => p ++ "\n\n"))

/-- Page loop of pdf_to_docling_with_ocr in src/document/document.py: write
the page pdf, convert (external OCR, modelled as yielding the page text),
save the temporary page markdown ignoring its return value, rewrite the
concatenated markdown file of all pages so far, upload it to the bucket
(external, no tracked state), and append an OK triple to the results. -/
def srcPageLoop (st : PipelineState) (pdf_name : String) :
    List String → Nat → List String → List (String × String × String) →
    PipelineState × Except PyError (List (String × String × String))
  | [], _, _, acc => (st, Except.ok acc)
  | md :: rest, page_number, mdPagesSoFar, acc =>
    let page_name := pdf_name ++ "-" ++ toString page_number
    let st1 := (createPagePath st md srcPagePdfFolder pdf_name page_name).1
    let md_generated := md
    let st2 := (saveTemporaryMdFile st1 srcMarkdownFolder pdf_name page_name md_generated).1
    let mdPages := mdPagesSoFar ++ [md_generated]
    let st3 := writeFile st2
      (srcFullFileMarkdownFolder ++ "-docling" ++ "/" ++ pdf_name ++ ".md")
      (concatPages mdPages)
    srcPageLoop st3 pdf_name rest (page_number + 1) mdPages
      (acc ++ [(pdf_name, page_name, "OK")])

/-- Function pdf_to_docling_with_ocr of src/document/document.py: zero
extracted pages print a message and return the empty list normally; no
error is raised and nothing is written.  The src pipeline never touches the
vector store. -/
def pdfToDoclingWithOcrSrc (st : PipelineState) (pages : List String)
    (pdf_name : String) :
    PipelineState × Except PyError (List (String × String × String)) :=
  if pages.length = 0 then (st, Except.ok [])
  else srcPageLoop st pdf_name pages 1 [] []

/-- JSON result shape of the ingest endpoint on its success path. -/
structure IngestResponse where
  message : String
  filename : String
  markdown_file : List EmbeddingResult
  embedding_result : EmbeddingResult
deriving DecidableEq, Repr

/-- Mapping of pipeline errors at the transport boundary of ingest_pdf:
FileNotFoundError becomes a 404, every other exception a 500 carrying the
message. -/
def mapPipelineError (e : PyError) : PyError :=
  match e with
  | PyError.fileNotFound p =>
    PyError.httpException 404 ("File not found during processing: " ++ p)
  | _ => PyError.httpException 500 "Error in pipeline"

/-- Call site document.pdf_to_docling_with_ocr(temp_pdf_path) in
app/main.py: the callee of app/document/document.py requires a
collection_name argument with no default, and the call site does not supply
one, so Python raises TypeError before the callee body runs. -/
def callPdfToDoclingApp (st : PipelineState) (model : EmbedModel)
    (pages : List String) (pdf_name : String) (collection_name : Option String) :
    PipelineState × Except PyError (List EmbeddingResult) :=
  match collection_name with
  | none =>
    (st, Except.error (PyError.typeError
      "pdf_to_docling_with_ocr missing 1 required positional argument"))
  | some cn => pdfToDoclingWithOcrApp st model pages pdf_name cn

/-- Endpoint ingest_pdf of app/main.py: reject non-pdf filenames with a 400;
then call pdf_to_docling_with_ocr passing only the temp pdf path (no
collection name), so the call raises and is mapped to an HTTP error.  Were
the call ever to return, the code would pass its list result where a file
path is expected and open would raise TypeError, mapped to a 500; that
continuation is modelled by its resulting error. -/
def ingestPdf (st : PipelineState) (model : EmbedModel) (filename : String)
    (pages : List String) (collection_name : Option String) (splitter_type : String) :
    PipelineState × Except PyError IngestResponse :=
  if !(filename.toLower.endsWith ".pdf") then
    (st, Except.error (PyError.httpException 400 "Only PDF files are supported"))
  else
    let call := callPdfToDoclingApp st model pages (basenameOf filename) none
    match call.2 with
    | Except.error e => (call.1, Except.error (mapPipelineError e))
    | Except.ok _results =>
      (call.1, Except.error (PyError.httpException 500
        "Error in pipeline: expected str, bytes or os.PathLike object, not list"))

theorem fwsAux_recon (size overlap : Nat) (h : overlap < size) :
    ∀ (fuel : Nat) (T : List Char), T.length ≤ fuel →
      reconWithOverlap overlap (fixedWindowSplitAux size overlap fuel T) = T := by
  intro fuel
  induction fuel with
  | zero =>
    intro T hT
    simp [fixedWindowSplitAux, reconWithOverlap]
  | succ n ih =>
    intro T hT
    simp only [fixedWindowSplitAux]
    split
    · simp [reconWithOverlap]
    · rename_i hcond
      push_neg at hcond
      simp only [reconWithOverlap]
      rw [fwsAux_flatten_drop size overlap h n (T.drop (size - overlap))
        (by simp [List.length_drop]; omega)]
      rw [List.drop_drop]
      have hso : size - overlap + overlap = size := by omega
      rw [hso, List.take_append_drop]

theorem lookupCollection_create (s : QdrantState) (name : String) (cfg : CollectionCfg) :
    lookupCollection (createCollection s name cfg) name = some cfg := by
  simp [lookupCollection, createCollection, List.find?]

theorem exists_lookup (s : QdrantState) (name : String)
    (hex : qdrantCollectionExists s name = true) :
    ∃ c, lookupCollection s name = some c := by
  unfold qdrantCollectionExists at hex
  obtain ⟨pair, hmem, hp⟩ := List.any_eq_true.mp hex
  have hsome : (s.collections.find? (fun c => c.1 == name)).isSome :=
    List.find?_isSome.mpr ⟨pair, hmem, hp⟩
  obtain ⟨pr, hpr⟩ := Option.isSome_iff_exists.mp hsome
  exact ⟨pr.2, by simp [lookupCollection, hpr]⟩

theorem ensure_lookup (s : QdrantState) (name : String) (cfg : CollectionCfg) :
    ∃ c, lookupCollection (ensureCollection s name cfg) name = some c := by
  unfold ensureCollection
  split
  · rename_i hex
    exact exists_lookup s name hex
  · exact ⟨cfg, lookupCollection_create s name cfg⟩

theorem src_contains_eq (s : QdrantState) (name : String) :
    (srcCollectionNames s).contains name = qdrantCollectionExists s name := by
  have h1 : (srcCollectionNames s).contains name = true ↔
      qdrantCollectionExists s name = true := by
    rw [show (srcCollectionNames s).contains name = (srcCollectionNames s).elem name from rfl]
    rw [List.elem_iff]
    unfold srcCollectionNames qdrantCollectionExists
    rw [List.any_eq_true]
    constructor
    · intro hmem
      obtain ⟨pair, hmem2, hfst⟩ := List.mem_map.mp hmem
      exact ⟨pair, hmem2, by simp [hfst]⟩
    · intro hmem
      obtain ⟨pair, hmem2, hfst⟩ := hmem
      exact List.mem_map.mpr ⟨pair, hmem2, by simpa using hfst⟩
  cases hc : (srcCollectionNames s).contains name with
  | true => exact (h1.mp hc).symm
  | false =>
    cases he : qdrantCollectionExists s name with
    | true =>
      have hcontra := h1.mpr he
      rw [hc] at hcontra
      exact absurd hcontra Bool.false_ne_true
    | false => rfl

theorem ensureSrc_eq_ensure (s : QdrantState) (name : String) (cfg : CollectionCfg) :
    ensureCollectionSrc s name cfg = ensureCollection s name cfg := by
  unfold ensureCollectionSrc ensureCollection
  rw [src_contains_eq]

theorem count_pos_of_exists (s : QdrantState) (name : String)
    (hex : qdrantCollectionExists s name = true) :
    0 < countCollections s name := by
  unfold qdrantCollectionExists at hex
  obtain ⟨pair, hmem, hp⟩ := List.any_eq_true.mp hex
  unfold countCollections
  have : pair ∈ s.collections.filter (fun c => c.1 == name) :=
    List.mem_filter.mpr ⟨hmem, hp⟩
  exact List.length_pos.mpr (List.ne_nil_of_mem this)

theorem count_zero_of_not_exists (s : QdrantState) (name : String)
    (hex : qdrantCollectionExists s name = false) :
    countCollections s name = 0 := by
  unfold countCollections
  rw [List.length_eq_zero, List.filter_eq_nil_iff]
  intro pair hmem
  intro hp
  unfold qdrantCollectionExists at hex
  have : s.collections.any (fun c => c.1 == name) = true :=
    List.any_eq_true.mpr ⟨pair, hmem, hp⟩
  rw [hex] at this
  exact Bool.false_ne_true this

theorem count_create (s : QdrantState) (name : String) (cfg : CollectionCfg) :
    countCollections (createCollection s name cfg) name = countCollections s name + 1 := by
  unfold countCollections createCollection
  simp [List.filter]

theorem exists_create (s : QdrantState) (name : String) (cfg : CollectionCfg) :
    qdrantCollectionExists (createCollection s name cfg) name = true := by
  unfold qdrantCollectionExists createCollection
  simp

theorem mkPoints_sound (model : EmbedModel) :
    ∀ (docs : List Document) (base : Nat) (p : Point), p ∈ mkPoints base docs model →
      ∃ d ∈ docs, p.vector = model.embed d.page_content := by
  intro docs
  induction docs with
  | nil =>
    intro base p hp
    simp [mkPoints] at hp
  | cons d rest ih =>
    intro base p hp
    simp only [mkPoints, List.mem_cons] at hp
    rcases hp with h1 | h2
    · exact ⟨d, List.mem_cons_self d rest, by rw [h1]⟩
    · obtain ⟨d2, hd2, hv⟩ := ih (base + 1) p h2
      exact ⟨d2, List.mem_cons_of_mem d hd2, hv⟩

theorem mkPoints_cover (model : EmbedModel) :
    ∀ (docs : List Document) (base : Nat) (d : Document), d ∈ docs →
      ∃ p ∈ mkPoints base docs model, p.vector = model.embed d.page_content := by
  intro docs
  induction docs with
  | nil =>
    intro base d hd
    exact absurd hd (List.not_mem_nil d)
  | cons d0 rest ih =>
    intro base d hd
    rcases List.mem_cons.mp hd with h1 | h2
    · subst h1
      exact ⟨_, List.mem_cons_self _ _, rfl⟩
    · obtain ⟨p, hp, hv⟩ := ih (base + 1) d h2
      exact ⟨p, List.mem_cons_of_mem _ hp, hv⟩

theorem mkPoints_nil (model : EmbedModel) (base : Nat) :
    mkPoints base [] model = [] := rfl

theorem ensure_points (s : QdrantState) (name : String) (cfg : CollectionCfg) :
    (ensureCollection s name cfg).points = s.points := by
  unfold ensureCollection createCollection
  split <;> rfl

theorem getTextSplitterApp_recursive :
    getTextSplitterApp "recursive_character"
      = Except.ok (Splitter.recursiveCharacter 1700 80 true) := rfl

theorem getTextSplitterSrc_recursive (strategy : String) (cs co : Nat)
    (h : strategy ≠ "semantic") :
    getTextSplitterSrc strategy cs co = Splitter.recursiveCharacter cs co true := by
  unfold getTextSplitterSrc
  simp [h]

theorem blank_filter_core (size overlap : Nat) (h : overlap < size) (T : List Char) :
    (pyStrip T = [] →
      (fixedWindowSplit size overlap T).filter (fun c => !(pyStrip c).isEmpty) = []) ∧
    (pyStrip T ≠ [] →
      (fixedWindowSplit size overlap T).filter (fun c => !(pyStrip c).isEmpty) ≠ []) := by
  constructor
  · intro hblank
    have hws := (pyStrip_eq_nil_iff T).mp hblank
    rw [List.filter_eq_nil_iff]
    intro c hc
    have hcws : ∀ ch ∈ c, isPySpace ch = true := fun ch hch =>
      hws ch (fwsAux_mem_subset size overlap T.length T c hc ch hch)
    have hn : pyStrip c = [] := (pyStrip_eq_nil_iff c).mpr hcws
    simp [hn]
  · intro hnb hfnil
    apply hnb
    rw [pyStrip_eq_nil_iff]
    intro ch hch
    by_contra hnws
    have hrec : reconWithOverlap overlap (fixedWindowSplit size overlap T) = T :=
      fwsAux_recon size overlap h T.length T (le_refl _)
    have hchunk : ∃ c ∈ fixedWindowSplit size overlap T, ch ∈ c := by
      cases hsp : fixedWindowSplit size overlap T with
      | nil =>
        rw [hsp] at hrec
        simp only [reconWithOverlap] at hrec
        rw [← hrec] at hch
        exact absurd hch (List.not_mem_nil ch)
      | cons c0 cs =>
        rw [hsp] at hrec
        simp only [reconWithOverlap] at hrec
        rw [← hrec] at hch
        rcases List.mem_append.mp hch with hh | ht
        · exact ⟨c0, List.mem_cons_self c0 cs, hh⟩
        · obtain ⟨piece, hpiece, hchp⟩ := List.mem_flatten.mp ht
          obtain ⟨ci, hci, hpeq⟩ := List.mem_map.mp hpiece
          refine ⟨ci, List.mem_cons_of_mem c0 hci, ?_⟩
          rw [← hpeq] at hchp
          exact List.drop_subset overlap ci hchp
    obtain ⟨c, hcmem, hchc⟩ := hchunk
    have hpne : pyStrip c ≠ [] := fun hpe =>
      hnws ((pyStrip_eq_nil_iff c).mp hpe ch hchc)
    have hkept : c ∈ (fixedWindowSplit size overlap T).filter
        (fun c => !(pyStrip c).isEmpty) := by
      refine List.mem_filter.mpr ⟨hcmem, ?_⟩
      cases hie : (pyStrip c).isEmpty
      · rfl
      · exact absurd (List.isEmpty_iff.mp hie) hpne
    rw [hfnil] at hkept
    exact absurd hkept (List.not_mem_nil c)

theorem upsert_points_guard (s1 : QdrantState) (name : String) (docs : List Document)
    (model : EmbedModel) (cfg : CollectionCfg) (base : Nat)
    (hcfg : lookupCollection s1 name = some cfg) :
    ((∃ d ∈ docs, (model.embed d.page_content).length ≠ cfg.size) →
      ∃ got, qdrantUpsert s1 name (mkPoints base docs model)
        = Except.error (PyError.dimensionMismatch cfg.size got)) ∧
    (∀ s2, qdrantUpsert s1 name (mkPoints base docs model) = Except.ok s2 →
      ∀ d ∈ docs, (model.embed d.page_content).length = cfg.size) := by
  have hq : qdrantUpsert s1 name (mkPoints base docs model)
      = (match (mkPoints base docs model).find?
            (fun p => p.vector.length != cfg.size) with
         | some p => Except.error (PyError.dimensionMismatch cfg.size p.vector.length)
         | none => Except.ok { s1 with
             points := s1.points ++ (mkPoints base docs model).map
               (fun p => (name, p)) }) := by
    unfold qdrantUpsert
    rw [hcfg]
  constructor
  · intro hmis
    obtain ⟨d, hd, hlen⟩ := hmis
    obtain ⟨p, hp, hv⟩ := mkPoints_cover model docs base d hd
    have hfs : ((mkPoints base docs model).find?
        (fun p => p.vector.length != cfg.size)).isSome := by
      refine List.find?_isSome.mpr ⟨p, hp, ?_⟩
      rw [bne_iff_ne, hv]
      exact hlen
    obtain ⟨p0, hp0⟩ := Option.isSome_iff_exists.mp hfs
    rw [hq, hp0]
    exact ⟨p0.vector.length, rfl⟩
  · intro s2 hs2 d hd
    rw [hq] at hs2
    cases hfind : (mkPoints base docs model).find?
        (fun p => p.vector.length != cfg.size) with
    | some p0 =>
      rw [hfind] at hs2
      exact absurd hs2 (by simp)
    | none =>
      obtain ⟨p, hp, hv⟩ := mkPoints_cover model docs base d hd
      have hnp := List.find?_eq_none.mp hfind p hp
      rw [bne_iff_ne] at hnp
      push_neg at hnp
      rw [← hv]
      exact hnp

/-- C3: for every text T and every valid pair of a chunk size and an
overlap with overlap strictly below the size, the fixed-window splitter
produces chunks in which every chunk (in particular every non-final one)
has length at most the chunk size, each pair of consecutive chunks agrees
on exactly overlap characters, and concatenating the chunks with the
overlaps removed reconstructs T. -/
theorem fixed_window_splitter_spec (size overlap : Nat) (T : List Char)
    (h : overlap < size) :
    (∀ c ∈ fixedWindowSplit size overlap T, c.length ≤ size) ∧
    consecOverlapB overlap (fixedWindowSplit size overlap T) = true ∧
    reconWithOverlap overlap (fixedWindowSplit size overlap T) = T :=
  ⟨fwsAux_all_le size overlap h T.length T (le_refl _),
   fwsAux_consec size overlap h T.length T (le_refl _),
   fwsAux_recon size overlap h T.length T (le_refl _)⟩

/-- Witness for C3 at size 3, overlap 1, text abcde. -/
theorem fixed_window_splitter_spec_witness :
    1 < 3 ∧
    ((∀ c ∈ fixedWindowSplit 3 1 "abcde".toList, c.length ≤ 3) ∧
     consecOverlapB 1 (fixedWindowSplit 3 1 "abcde".toList) = true ∧
     reconWithOverlap 1 (fixedWindowSplit 3 1 "abcde".toList) = "abcde".toList) :=
  ⟨by decide, fixed_window_splitter_spec 3 1 "abcde".toList (by decide)⟩

/-- Counterexample for C5: in the src variant an unrecognized strategy
value does not fail with an UnknownStrategy configuration error; it
silently falls back to the recursive character splitter. -/
theorem unknown_strategy_cex :
    getTextSplitterSrc "bogus" 800 100 = Splitter.recursiveCharacter 800 100 true := rfl

/-- C5 amended: in the app variant every unrecognized strategy name fails
the factory dict lookup with KeyError and never falls back to another
splitter, while in the src variant every strategy value other than semantic
silently falls back to the recursive character splitter without error. -/
theorem unknown_strategy_variants (name strategy : String) (cs co : Nat)
    (h1 : name ≠ "recursive_character") (h2 : name ≠ "semantic_chunker")
    (h3 : strategy ≠ "semantic") :
    getTextSplitterApp name = Except.error (PyError.keyError name) ∧
    getTextSplitterSrc strategy cs co = Splitter.recursiveCharacter cs co true := by
  constructor
  · unfold getTextSplitterApp textSplittersFactory
    simp only [List.lookup]
    rw [show (name == "recursive_character") = false from beq_eq_false_iff_ne.mpr h1]
    rw [show (name == "semantic_chunker") = false from beq_eq_false_iff_ne.mpr h2]
  · unfold getTextSplitterSrc
    simp [h3]

/-- Witness for C5 amended at the strategy names bogus2 and weird. -/
theorem unknown_strategy_variants_witness :
    ("bogus2" ≠ "recursive_character" ∧ "bogus2" ≠ "semantic_chunker"
      ∧ "weird" ≠ "semantic") ∧
    (getTextSplitterApp "bogus2" = Except.error (PyError.keyError "bogus2") ∧
     getTextSplitterSrc "weird" 800 100 = Splitter.recursiveCharacter 800 100 true) :=
  ⟨⟨by decide, by decide, by decide⟩,
   unknown_strategy_variants "bogus2" "weird" 800 100
     (by decide) (by decide) (by decide)⟩

/-- C2: the ensure-collection step of the upsert operation is idempotent in
both variants: it is a total function (never raises), a second run with the
identical name, size and metric changes nothing, and afterwards exactly one
collection of that name exists, because existence is checked before
creation.  The hypothesis is the store invariant that at most one
collection per name exists beforehand. -/
theorem ensure_collection_idempotent (s : QdrantState) (name : String)
    (cfg : CollectionCfg) (hwf : countCollections s name ≤ 1) :
    ensureCollection (ensureCollection s name cfg) name cfg
      = ensureCollection s name cfg ∧
    countCollections (ensureCollection (ensureCollection s name cfg) name cfg) name = 1 ∧
    ensureCollectionSrc (ensureCollectionSrc s name cfg) name cfg
      = ensureCollectionSrc s name cfg := by
  have hsrc : ∀ t : QdrantState,
      ensureCollectionSrc t name cfg = ensureCollection t name cfg :=
    fun t => ensureSrc_eq_ensure t name cfg
  by_cases hex : qdrantCollectionExists s name = true
  · have h1 : ensureCollection s name cfg = s := by
      simp [ensureCollection, hex]
    have hpos := count_pos_of_exists s name hex
    refine ⟨?_, ?_, ?_⟩
    · rw [h1]; exact h1
    · rw [h1, h1]; omega
    · simp only [hsrc, h1]
  · have hexf : qdrantCollectionExists s name = false := by
      cases hq : qdrantCollectionExists s name
      · rfl
      · exact absurd hq hex
    have h1 : ensureCollection s name cfg = createCollection s name cfg := by
      simp [ensureCollection, hexf]
    have h2 : ensureCollection (createCollection s name cfg) name cfg
        = createCollection s name cfg := by
      simp [ensureCollection, exists_create s name cfg]
    have hz := count_zero_of_not_exists s name hexf
    refine ⟨?_, ?_, ?_⟩
    · rw [h1, h2]
    · rw [h1, h2, count_create]; omega
    · simp only [hsrc, h1, h2]

/-- Witness for C2 on a store holding one unrelated collection. -/
theorem ensure_collection_idempotent_witness :
    countCollections { collections := [("other", appVectorParams)], points := [] } "c" ≤ 1 ∧
    (ensureCollection (ensureCollection
        { collections := [("other", appVectorParams)], points := [] } "c" appVectorParams)
        "c" appVectorParams
      = ensureCollection
        { collections := [("other", appVectorParams)], points := [] } "c" appVectorParams ∧
     countCollections (ensureCollection (ensureCollection
        { collections := [("other", appVectorParams)], points := [] } "c" appVectorParams)
        "c" appVectorParams) "c" = 1 ∧
     ensureCollectionSrc (ensureCollectionSrc
        { collections := [("other", appVectorParams)], points := [] } "c" appVectorParams)
        "c" appVectorParams
      = ensureCollectionSrc
        { collections := [("other", appVectorParams)], points := [] } "c" appVectorParams) :=
  ⟨by decide,
   ensure_collection_idempotent
     { collections := [("other", appVectorParams)], points := [] } "c" appVectorParams
     (by decide)⟩

/-- Counterexample for C1: in the app variant a call of send_embed_to_qdrant
with an empty documents list is not a no-op success; it raises (the source
raises a bare string literal, which Python surfaces as TypeError). -/
theorem upsert_empty_cex :
    sendEmbedToQdrantApp { collections := [], points := [] } "docs" []
      { embed := fun _ => [0] }
      = Except.error (PyError.typeError "exceptions must derive from BaseException") := rfl

/-- C1 amended: with an empty documents list the app variant of
send_embed_to_qdrant raises an error, while the src variant returns
normally having written zero points to the store (it still ensures the
collection exists first). -/
theorem upsert_empty_variants (s : QdrantState) (name : String) (model : EmbedModel) :
    (∃ msg, sendEmbedToQdrantApp s name [] model
        = Except.error (PyError.typeError msg)) ∧
    (∃ s2, sendEmbedToQdrantSrc s name [] model = Except.ok s2
        ∧ s2.points = s.points) := by
  constructor
  · exact ⟨_, rfl⟩
  · obtain ⟨c, hc⟩ := ensure_lookup s name
      { size := (model.embed "test").length, distance := Distance.cosine }
    unfold sendEmbedToQdrantSrc
    rw [ensureSrc_eq_ensure]
    unfold qdrantUpsert
    rw [mkPoints_nil, hc]
    refine ⟨_, rfl, ?_⟩
    simp [ensure_points]

/-- C7 amended: on a PDF with zero extracted pages the app variant raises
an error (a bare string literal is raised, surfacing as TypeError) while
the src variant returns the empty result list as a normal success; both
perform no per-page work, write no files and make no vector-store writes,
the whole pipeline state being returned unchanged. -/
theorem zero_pages_variants (st : PipelineState) (model : EmbedModel)
    (pdf_name collection_name : String) :
    (∃ msg, pdfToDoclingWithOcrApp st model [] pdf_name collection_name
        = (st, Except.error (PyError.typeError msg))) ∧
    pdfToDoclingWithOcrSrc st [] pdf_name = (st, Except.ok []) :=
  ⟨⟨_, rfl⟩, rfl⟩

/-- Counterexample for C7: in the src variant zero extracted pages yield a
normal success carrying the empty result list, not a Failed error state. -/
theorem zero_pages_cex :
    pdfToDoclingWithOcrSrc
      { qdrant := { collections := [], points := [] }, files := [] } [] "doc"
      = ({ qdrant := { collections := [], points := [] }, files := [] },
         Except.ok []) := rfl

/-- C8: the success path of the ingest endpoint is unreachable: every
request receives an HTTP error response, because the endpoint calls
pdf_to_docling_with_ocr without the required collection_name argument, so a
TypeError is raised on every upload that passes the PDF extension check and
is mapped to a 500 response; non-PDF filenames receive a 400. -/
theorem ingest_pdf_never_succeeds (st : PipelineState) (model : EmbedModel)
    (filename : String) (pages : List String) (collection_name : Option String)
    (splitter_type : String) :
    ∃ status detail,
      (ingestPdf st model filename pages collection_name splitter_type).2
        = Except.error (PyError.httpException status detail) := by
  unfold ingestPdf
  split
  · exact ⟨400, _, rfl⟩
  · exact ⟨500, _, rfl⟩

/-- C10: save_temporary_md_file always returns None, so for every PDF with
at least one page the app orchestrator passes None as the markdown path to
the per-page embedding step, which fails on the very first page with the
TypeError that open raises on None; the per-page success path is
unreachable. -/
theorem save_none_pipeline_fails (st : PipelineState) (model : EmbedModel)
    (folder pdf_name page_name md collection_name : String) (pages : List String)
    (hne : pages ≠ []) :
    (saveTemporaryMdFile st folder pdf_name page_name md).2 = none ∧
    ∃ st2, pdfToDoclingWithOcrApp st model pages pdf_name collection_name
      = (st2, Except.error (PyError.typeError
          "expected str, bytes or os.PathLike object, not NoneType")) := by
  refine ⟨rfl, ?_⟩
  cases pages with
  | nil => exact absurd rfl hne
  | cons p rest => exact ⟨_, rfl⟩

/-- Witness for C10 on a one-page PDF. -/
theorem save_none_pipeline_fails_witness :
    (["page one"] : List String) ≠ [] ∧
    ((saveTemporaryMdFile
        { qdrant := { collections := [], points := [] }, files := [] }
        "m" "doc" "doc-1" "page one").2 = none ∧
     ∃ st2, pdfToDoclingWithOcrApp
        { qdrant := { collections := [], points := [] }, files := [] }
        { embed := fun _ => [0] } ["page one"] "doc" "coll"
      = (st2, Except.error (PyError.typeError
          "expected str, bytes or os.PathLike object, not NoneType"))) :=
  ⟨by decide,
   save_none_pipeline_fails
     { qdrant := { collections := [], points := [] }, files := [] }
     { embed := fun _ => [0] } "m" "doc" "doc-1" "page one" "coll" ["page one"]
     (by decide)⟩

/-- C4: in both variants of the upsert operation, whenever some document
embedding from the provider has a length different from the vector size
fixed for the collection (size 1024 for a collection freshly created by the
app variant, the probe embedding length for one freshly created by the src
variant, the pre-existing size otherwise), the call fails with a dimension
mismatch; and whenever the call succeeds, every document embedding had
exactly the collection size, so no vector was ever truncated or padded to
fit.  The rejection itself is the spec-modelled dimension invariant of the
store. -/
theorem upsert_dimension_guard (s : QdrantState) (name : String)
    (docs : List Document) (model : EmbedModel) (cfg cfgs : CollectionCfg)
    (hne : docs ≠ [])
    (hcfg : lookupCollection (ensureCollection s name appVectorParams) name = some cfg)
    (hcfgs : lookupCollection (ensureCollectionSrc s name
        { size := (model.embed "test").length, distance := Distance.cosine }) name
      = some cfgs) :
    ((∃ d ∈ docs, (model.embed d.page_content).length ≠ cfg.size) →
      ∃ got, sendEmbedToQdrantApp s name docs model
        = Except.error (PyError.dimensionMismatch cfg.size got)) ∧
    (∀ s2, sendEmbedToQdrantApp s name docs model = Except.ok s2 →
      ∀ d ∈ docs, (model.embed d.page_content).length = cfg.size) ∧
    ((∃ d ∈ docs, (model.embed d.page_content).length ≠ cfgs.size) →
      ∃ got, sendEmbedToQdrantSrc s name docs model
        = Except.error (PyError.dimensionMismatch cfgs.size got)) ∧
    (∀ s2, sendEmbedToQdrantSrc s name docs model = Except.ok s2 →
      ∀ d ∈ docs, (model.embed d.page_content).length = cfgs.size) := by
  have hni : docs.isEmpty = false := by
    cases docs
    · exact absurd rfl hne
    · rfl
  have heqa : sendEmbedToQdrantApp s name docs model
      = qdrantUpsert (ensureCollection s name appVectorParams) name
          (mkPoints (ensureCollection s name appVectorParams).points.length
            docs model) := by
    unfold sendEmbedToQdrantApp addDocuments
    simp only [hni, Bool.false_eq_true, if_false]
  have happ := upsert_points_guard (ensureCollection s name appVectorParams) name docs
    model cfg (ensureCollection s name appVectorParams).points.length hcfg
  have hsrc := upsert_points_guard
    (ensureCollectionSrc s name
      { size := (model.embed "test").length, distance := Distance.cosine }) name docs
    model cfgs
    (ensureCollectionSrc s name
      { size := (model.embed "test").length, distance := Distance.cosine }).points.length
    hcfgs
  rw [heqa]
  exact ⟨happ.1, happ.2, hsrc.1, hsrc.2⟩

/-- Witness for C4: a provider of 3-dimensional vectors against the fresh
1024-sized app collection makes the app call fail with a dimension
mismatch, while the src collection is created at the probe size 3 and
matches. -/
theorem upsert_dimension_guard_witness :
    ([{ page_content := "hello", metadata := [] }] : List Document) ≠ [] ∧
    lookupCollection (ensureCollection { collections := [], points := [] } "c"
      appVectorParams) "c" = some appVectorParams ∧
    lookupCollection (ensureCollectionSrc { collections := [], points := [] } "c"
      { size := (([1, 2, 3] : List Int)).length, distance := Distance.cosine }) "c"
      = some { size := 3, distance := Distance.cosine } ∧
    (((∃ d ∈ ([{ page_content := "hello", metadata := [] }] : List Document),
        ((fun _ => [(1 : Int), 2, 3]) d.page_content).length ≠ appVectorParams.size) →
      ∃ got, sendEmbedToQdrantApp { collections := [], points := [] } "c"
          [{ page_content := "hello", metadata := [] }] { embed := fun _ => [1, 2, 3] }
        = Except.error (PyError.dimensionMismatch appVectorParams.size got)) ∧
    (∀ s2, sendEmbedToQdrantApp { collections := [], points := [] } "c"
          [{ page_content := "hello", metadata := [] }] { embed := fun _ => [1, 2, 3] }
        = Except.ok s2 →
      ∀ d ∈ ([{ page_content := "hello", metadata := [] }] : List Document),
        ((fun _ => [(1 : Int), 2, 3]) d.page_content).length = appVectorParams.size) ∧
    ((∃ d ∈ ([{ page_content := "hello", metadata := [] }] : List Document),
        ((fun _ => [(1 : Int), 2, 3]) d.page_content).length
          ≠ ({ size := 3, distance := Distance.cosine } : CollectionCfg).size) →
      ∃ got, sendEmbedToQdrantSrc { collections := [], points := [] } "c"
          [{ page_content := "hello", metadata := [] }] { embed := fun _ => [1, 2, 3] }
        = Except.error (PyError.dimensionMismatch
            ({ size := 3, distance := Distance.cosine } : CollectionCfg).size got)) ∧
    (∀ s2, sendEmbedToQdrantSrc { collections := [], points := [] } "c"
          [{ page_content := "hello", metadata := [] }] { embed := fun _ => [1, 2, 3] }
        = Except.ok s2 →
      ∀ d ∈ ([{ page_content := "hello", metadata := [] }] : List Document),
        ((fun _ => [(1 : Int), 2, 3]) d.page_content).length
          = ({ size := 3, distance := Distance.cosine } : CollectionCfg).size)) :=
  ⟨by decide, by decide, by decide,
   upsert_dimension_guard { collections := [], points := [] } "c"
     [{ page_content := "hello", metadata := [] }] { embed := fun _ => [1, 2, 3] }
     appVectorParams { size := 3, distance := Distance.cosine }
     (by decide) (by decide) (by decide)⟩

/-- Counterexample for C6: on a file whose text is a single space (blank
after trim, non-empty), the recursive branch of chunk_and_embed_markdown
raises nothing and returns the empty chunk sequence; neither the EmptyInput
error nor the at-least-one-element guarantee of the claim holds. -/
theorem chunk_markdown_blank_cex :
    chunkAndEmbedMarkdownApp
      { qdrant := { collections := [], points := [] }, files := [("f.md", " ")] }
      "f.md" "recursive_character" (fun _ => Except.error (PyError.typeError "sem"))
      = Except.ok [] := rfl

/-- C6 amended: chunk_and_embed_markdown has no blank-input check.  On the
fixed-window (recursive) splitter branch, in both variants, a file blank
after trim yields the empty chunk sequence as a normal success rather than
an EmptyInput error, and a file containing at least one non-whitespace
character yields at least one chunk; on the semantic branch splitting is
delegated to the external SemanticChunker.  The src variant takes any
strategy value other than semantic (its fallback) and any window sizes with
overlap below size. -/
theorem chunk_markdown_blank_behavior (st : PipelineState) (path raw : String)
    (sem : String → Except PyError (List Document))
    (semSplit : String → List String) (splitter_type : String) (cs co : Nat)
    (hfile : st.files.lookup path = some raw)
    (hst : splitter_type ≠ "semantic") (hco : co < cs) :
    (pyStrip raw.toList = [] →
      chunkAndEmbedMarkdownApp st path "recursive_character" sem = Except.ok [] ∧
      chunkAndEmbedMarkdownSrc st path splitter_type cs co semSplit = Except.ok []) ∧
    (pyStrip raw.toList ≠ [] →
      (∃ docs, chunkAndEmbedMarkdownApp st path "recursive_character" sem
          = Except.ok docs ∧ docs ≠ []) ∧
      (∃ docs, chunkAndEmbedMarkdownSrc st path splitter_type cs co semSplit
          = Except.ok docs ∧ docs ≠ [])) := by
  have hcoreA := blank_filter_core 1700 80 (by omega) raw.toList
  have hcoreS := blank_filter_core cs co hco raw.toList
  have heqA : chunkAndEmbedMarkdownApp st path "recursive_character" sem
      = Except.ok (((fixedWindowSplit 1700 80 raw.toList).filter
          (fun c => !(pyStrip c).isEmpty)).map
        (fun c => ({ page_content := String.mk c,
                     metadata := [("source_file", basenameOf path)] } : Document))) := by
    unfold chunkAndEmbedMarkdownApp
    rw [hfile, getTextSplitterApp_recursive]
  have heqS : chunkAndEmbedMarkdownSrc st path splitter_type cs co semSplit
      = Except.ok (((fixedWindowSplit cs co raw.toList).filter
          (fun c => !(pyStrip c).isEmpty)).map
        (fun c => ({ page_content := String.mk c,
                     metadata := [("source_file", basenameOf path)] } : Document))) := by
    unfold chunkAndEmbedMarkdownSrc
    rw [hfile, getTextSplitterSrc_recursive splitter_type cs co hst]
  constructor
  · intro hblank
    rw [heqA, heqS, hcoreA.1 hblank, hcoreS.1 hblank]
    exact ⟨rfl, rfl⟩
  · intro hnb
    refine ⟨⟨_, heqA, ?_⟩, ⟨_, heqS, ?_⟩⟩
    · intro hmapnil
      exact hcoreA.2 hnb (List.map_eq_nil_iff.mp hmapnil)
    · intro hmapnil
      exact hcoreS.2 hnb (List.map_eq_nil_iff.mp hmapnil)

/-- Witness for C6 amended on a file holding the text hi, with the src
variant at the strategy recursive and its default sizes 1000 and 100. -/
theorem chunk_markdown_blank_behavior_witness :
    (({ qdrant := { collections := [], points := [] },
        files := [("g.md", "hi")] } : PipelineState).files.lookup "g.md" = some "hi" ∧
     "recursive" ≠ "semantic" ∧ 100 < 1000) ∧
    ((pyStrip "hi".toList = [] →
      chunkAndEmbedMarkdownApp
        { qdrant := { collections := [], points := [] }, files := [("g.md", "hi")] }
        "g.md" "recursive_character" (fun _ => Except.error (PyError.typeError "sem"))
        = Except.ok [] ∧
      chunkAndEmbedMarkdownSrc
        { qdrant := { collections := [], points := [] }, files := [("g.md", "hi")] }
        "g.md" "recursive" 1000 100 (fun s => [s]) = Except.ok []) ∧
     (pyStrip "hi".toList ≠ [] →
      (∃ docs, chunkAndEmbedMarkdownApp
          { qdrant := { collections := [], points := [] }, files := [("g.md", "hi")] }
          "g.md" "recursive_character" (fun _ => Except.error (PyError.typeError "sem"))
          = Except.ok docs ∧ docs ≠ []) ∧
      (∃ docs, chunkAndEmbedMarkdownSrc
          { qdrant := { collections := [], points := [] }, files := [("g.md", "hi")] }
          "g.md" "recursive" 1000 100 (fun s => [s])
          = Except.ok docs ∧ docs ≠ []))) :=
  ⟨⟨rfl, by decide, by decide⟩,
   chunk_markdown_blank_behavior
     { qdrant := { collections := [], points := [] }, files := [("g.md", "hi")] }
     "g.md" "hi" (fun _ => Except.error (PyError.typeError "sem")) (fun s => [s])
     "recursive" 1000 100 rfl (by decide) (by decide)⟩

/-- C9: every normal return of create_embeddings_from_markdown reports a
document count of exactly one, because the whole Markdown file is wrapped
as a single Document and the text splitter call is commented out, while the
splitter_type field still reports the strategy argument as if it had been
applied. -/
theorem create_embeddings_count_one (st : PipelineState) (model : EmbedModel)
    (mf : Option String) (cname strat : String) (st2 : PipelineState)
    (r : EmbeddingResult)
    (h : createEmbeddingsFromMarkdown st model mf cname strat = Except.ok (st2, r)) :
    r.document_count = 1 ∧ r.splitter_type = strat := by
  unfold createEmbeddingsFromMarkdown at h
  split at h
  · exact absurd h (by simp)
  · rename_i documents hdoc
    split at h
    · exact absurd h (by simp)
    · simp only [Except.ok.injEq, Prod.mk.injEq] at h
      obtain ⟨_h1, h2⟩ := h
      rw [← h2]
      refine ⟨?_, rfl⟩
      show documents.length = 1
      unfold createDocumentFromMarkdown at hdoc
      split at hdoc
      · exact absurd hdoc (by simp)
      · split at hdoc
        · exact absurd hdoc (by simp)
        · simp only [Except.ok.injEq] at hdoc
          rw [← hdoc]
          rfl

/-- Witness for C9 on a successful run against a pre-existing 3-dimensional
collection. -/
theorem create_embeddings_count_one_witness :
    (createEmbeddingsFromMarkdown
      { qdrant := { collections := [("coll", { size := 3, distance := Distance.cosine })],
                    points := [] },
        files := [("f.md", "hello")] }
      { embed := fun _ => [1, 2, 3] } (some "f.md") "coll" "recursive_character"
      = Except.ok
        ({ qdrant := { collections := [("coll", { size := 3, distance := Distance.cosine })],
                       points := [("coll", { id := 0, vector := [1, 2, 3],
                                             payload := [("file_name", "coll")] })] },
           files := [("f.md", "hello")] },
         { collection_name := "coll", document_count := 1,
           splitter_type := "recursive_character" })) ∧
    (({ collection_name := "coll", document_count := 1,
        splitter_type := "recursive_character" } : EmbeddingResult).document_count = 1 ∧
     ({ collection_name := "coll", document_count := 1,
        splitter_type := "recursive_character" } : EmbeddingResult).splitter_type
      = "recursive_character") :=
  ⟨rfl,
   create_embeddings_count_one
     { qdrant := { collections := [("coll", { size := 3, distance := Distance.cosine })],
                   points := [] },
       files := [("f.md", "hello")] }
     { embed := fun _ => [1, 2, 3] } (some "f.md") "coll" "recursive_character"
     { qdrant := { collections := [("coll", { size := 3, distance := Distance.cosine })],
                   points := [("coll", { id := 0, vector := [1, 2, 3],
                                         payload := [("file_name", "coll")] })] },
       files := [("f.md", "hello")] }
     { collection_name := "coll", document_count := 1,
       splitter_type := "recursive_character" }
     rfl⟩

end Ingestor
